import Mathlib

/-!
Shallow embedding of the rununtil library (mec07/rununtil, rununtil.go,
current version: the map-based canceller with AwaitKillSignals and
SimulateKillSignal).

Modelling choices, each tied to the Go source:

* A Go channel of kind chan struct is used here purely as a one-shot
  broadcast primitive: it is created open and closed exactly once by
  close().  We model the set of all channels as a heap, a list of
  Booleans indexed by allocation order (false = open, true = closed).
  Go's close() panics on an already-closed channel; closeChan returns
  none in that case.

* canceller (rununtil.go lines 90-113) holds a map from string keys to
  channels, mutated under a mutex.  All registry operations are
  performed while holding the lock, so they are sequentialized; we model
  the map as an association list with unique keys (Go map assignment
  overwrites, deletion removes, iteration visits every entry).

* addChannel stores the channel under the key (line 97), removeChannel
  deletes the key (line 103), cancelAll closes every channel currently
  in the map and leaves the map itself untouched (lines 107-113: the
  loop body is close(canc.signals[key]); there is no delete and no
  reassignment of the map).

* AwaitKillSignals (lines 141-162) is modelled as one complete
  invocation: it allocates a fresh finish channel, registers it under a
  fresh uuid key, calls each runner collecting its shutdown in a defer
  (deferred calls run LIFO when the function returns), blocks on the
  select until either the OS signal channel or the finish channel fires
  (the TermEvent argument records which), removes its key, and then the
  deferred shutdown functions run.  A panic inside one deferred call
  does not prevent the remaining deferred calls from running (Go runs
  the rest of the defer stack while panicking), and the panic then
  propagates out of AwaitKillSignals; the Outcome field records whether
  the invocation returned normally or ended panicking.  The invocation
  itself never closes any channel.

* The uuid produced by uuid.New() (line 146) is modelled as an oracle
  argument: a string key, assumed fresh where a theorem needs it (the
  source relies on randomly generated v4 uuids for uniqueness).
-/

namespace Rununtil

/-- Heap of one-shot channels, indexed by allocation order.
false = open, true = closed. -/
abbrev Heap := List Bool

/-- make(chan struct) : allocate a fresh open channel, returning the new
heap and the channel's index. -/
def newChan (h : Heap) : Heap × Nat :=
  (h ++ [false], h.length)

/-- close(c) : Go panics (none) if the channel is invalid or already
closed, otherwise marks it closed. -/
def closeChan (h : Heap) (c : Nat) : Option Heap :=
  match h[c]? with
  | some false => some (h.set c true)
  | _ => none

/-- The canceller's map from uuid string keys to channels
(rununtil.go line 91: signals map[string]chan struct). -/
abbrev Registry := List (String × Nat)

/-- Map lookup, Go m[key]. -/
def lookupKey (r : Registry) (key : String) : Option Nat :=
  (r.find? (fun p => p.1 == key)).map Prod.snd

/-- The canceller (rununtil.go lines 90-93); the mutex serializes the
three operations below, so it needs no explicit model. -/
structure Canceller where
  signals : Registry
  deriving DecidableEq

/-- canc.signals[key] = c under the mutex (rununtil.go lines 95-99).
Go map assignment overwrites any entry already stored at the key. -/
def Canceller.addChannel (canc : Canceller) (key : String) (c : Nat) : Canceller :=
  ⟨(key, c) :: canc.signals.filter (fun p => p.1 != key)⟩

/-- delete(canc.signals, key) under the mutex (rununtil.go lines
101-105); deleting an absent key is a no-op in Go. -/
def Canceller.removeChannel (canc : Canceller) (key : String) : Canceller :=
  ⟨canc.signals.filter (fun p => p.1 != key)⟩

/-- Whole-process state: the channel heap plus the global canceller. -/
structure GState where
  heap : Heap
  canc : Canceller
  deriving DecidableEq

/-- Close every channel of the given registry entries in order,
propagating the panic of a close on an already-closed channel. -/
def closeList (h : Heap) : Registry → Option Heap
  | [] => some h
  | p :: rest =>
    match closeChan h p.2 with
    | some h2 => closeList h2 rest
    | none => none

/-- canc.cancelAll() (rununtil.go lines 107-113): under the mutex, close
every channel in the map.  The loop closes canc.signals[key] for every
key; the map is left exactly as it was (the body contains no delete and
the map is not reassigned). -/
def cancelAll (s : GState) : Option GState :=
  (closeList s.heap s.canc.signals).map (fun h2 => ⟨h2, s.canc⟩)

/-- SimulateKillSignal (rununtil.go lines 166-168): just cancelAll on
the global canceller. -/
def simulateKillSignal (s : GState) : Option GState :=
  cancelAll s

/-- n successive calls of SimulateKillSignal, stopping at a panic. -/
def cancelAllIter : Nat → GState → Option GState
  | 0, s => some s
  | n + 1, s => (cancelAll s).bind (cancelAllIter n)

/-- A worker as AwaitKillSignals sees it: calling the RunnerFunc yields
a ShutdownFunc; sid identifies that shutdown callback and panics records
whether invoking it panics. -/
structure Worker where
  sid : Nat
  panics : Bool
  deriving DecidableEq

/-- Observable events of one AwaitKillSignals invocation, in order. -/
inductive Ev where
  | register : String → Ev
  | deregister : String → Ev
  | shutdown : Nat → Ev
  deriving DecidableEq

/-- Which arm of the select fired (rununtil.go lines 155-160): the OS
signal channel or this invocation's finish channel. -/
inductive TermEvent where
  | osSignal
  | finishClosed
  deriving DecidableEq

/-- Whether the invocation returned normally or ended propagating a
panic raised by a deferred shutdown callback. -/
inductive Outcome where
  | normal
  | panicked
  deriving DecidableEq

/-- Run a defer stack (head = most recently deferred, Go pops LIFO).
Every deferred shutdown executes even while panicking, and the function
ends panicking if any of them panicked. -/
def runDeferStack : List Worker → List Ev × Bool
  | [] => ([], false)
  | w :: rest =>
    let r := runDeferStack rest
    (Ev.shutdown w.sid :: r.1, w.panics || r.2)

/-- Result of one completed AwaitKillSignals invocation. -/
structure RunResult where
  state : GState
  trace : List Ev
  outcome : Outcome
  deriving DecidableEq

/-- AwaitKillSignals (rununtil.go lines 141-162), one complete
invocation.  Steps in source order: make the buffered signal channel and
signal.Notify (no observable state in this model), make the finish
channel, addChannel under the fresh uuid key, the runner loop (each
runner is invoked and its shutdown deferred), the select blocking until
ev fires, removeChannel of the key, and finally the deferred shutdowns
running LIFO as the function returns. -/
def awaitKillSignals (key : String) (runners : List Worker) (ev : TermEvent)
    (s : GState) : RunResult :=
  let hc := newChan s.heap
  let canc1 := s.canc.addChannel key hc.2
  let deferStack := runners.reverse
  let canc2 :=
    match ev with
    | TermEvent.osSignal => canc1.removeChannel key
    | TermEvent.finishClosed => canc1.removeChannel key
  let r := runDeferStack deferStack
  { state := ⟨hc.1, canc2⟩
    trace := Ev.register key :: Ev.deregister key :: r.1
    outcome := if r.2 then Outcome.panicked else Outcome.normal }

/-- AwaitKillSignal (rununtil.go lines 134-136): AwaitKillSignals with
the default SIGINT/SIGTERM signal set; the signal set does not affect
the state transition, so the model is the same function. -/
def awaitKillSignal (key : String) (runners : List Worker) (ev : TermEvent)
    (s : GState) : RunResult :=
  awaitKillSignals key runners ev s

/-- The shutdown callback ids recorded in a trace, in execution order. -/
def shutdownsOf (t : List Ev) : List Nat :=
  t.filterMap (fun e =>
    match e with
    | Ev.shutdown i => some i
    | _ => none)

/-! ### Basic lemmas about the registry and the channel heap -/

theorem filter_ne_of_lookup_none (r : Registry) (key : String)
    (h : lookupKey r key = none) :
    r.filter (fun p => p.1 != key) = r := by
  apply List.filter_eq_self.mpr
  intro p hp
  have h2 : r.find? (fun p => p.1 == key) = none := by
    unfold lookupKey at h
    cases hf : r.find? (fun p => p.1 == key) with
    | none => rfl
    | some v => rw [hf] at h; cases h
  have h3 := List.find?_eq_none.mp h2 p hp
  simpa [bne] using h3

theorem closeChan_eq_some {h h2 : Heap} {c : Nat}
    (hc : closeChan h c = some h2) :
    h[c]? = some false ∧ h2 = h.set c true := by
  unfold closeChan at hc
  split at hc
  · exact ⟨by assumption, (Option.some.inj hc).symm⟩
  · cases hc

theorem closeChan_get_self {h h2 : Heap} {c : Nat}
    (hc : closeChan h c = some h2) : h2[c]? = some true := by
  obtain ⟨hg, rfl⟩ := closeChan_eq_some hc
  have hlt : c < h.length := (List.getElem?_eq_some_iff.mp hg).1
  simp [List.getElem?_set_self hlt]

theorem closeChan_get_other {h h2 : Heap} {c d : Nat}
    (hc : closeChan h c = some h2) (hne : d ≠ c) : h2[d]? = h[d]? := by
  obtain ⟨hg, rfl⟩ := closeChan_eq_some hc
  exact List.getElem?_set_ne (Ne.symm hne)

theorem closeList_preserves_closed {l : Registry} :
    ∀ {h h2 : Heap} {c : Nat}, closeList h l = some h2 →
      h[c]? = some true → h2[c]? = some true := by
  induction l with
  | nil =>
    intro h h2 c hc hcl
    unfold closeList at hc
    cases hc
    exact hcl
  | cons p rest ih =>
    intro h h2 c hc hcl
    unfold closeList at hc
    split at hc
    · rename_i h3 heq
      have hne : c ≠ p.2 := by
        intro e
        subst e
        have hg := (closeChan_eq_some heq).1
        rw [hcl] at hg
        cases hg
      have hcl3 : h3[c]? = some true := by
        rw [closeChan_get_other heq hne]
        exact hcl
      exact ih hc hcl3
    · cases hc

theorem closeList_closes {l : Registry} :
    ∀ {h h2 : Heap}, closeList h l = some h2 →
      ∀ p ∈ l, h2[p.2]? = some true := by
  induction l with
  | nil =>
    intro h h2 _ p hp
    cases hp
  | cons q rest ih =>
    intro h h2 hc p hp
    unfold closeList at hc
    split at hc
    · rename_i h3 heq
      rcases List.mem_cons.mp hp with rfl | hmem
      · exact closeList_preserves_closed hc (closeChan_get_self heq)
      · exact ih hc p hmem
    · cases hc

/-! ### C1 -/

/-- C1 counterexample: on a state with one registered open waiter,
cancelAll (SimulateKillSignal) returns successfully, yet the registry
still holds that waiter's entry afterwards — the mapping is not empty,
contradicting the claim that cancel_all leaves the registry empty. -/
theorem cancelAll_leaves_registry_nonempty :
    (cancelAll ⟨[false], ⟨[("a", 0)]⟩⟩).map (fun s => s.canc.signals)
        = some [("a", 0)] ∧
      ([("a", 0)] : Registry) ≠ [] := by
  exact ⟨rfl, by simp⟩

/-- C1 (amended): after cancelAll returns, every waiter that was
registered at the start of the call has been signaled (its channel is
closed), but the registry mapping is left exactly unchanged rather than
emptied — entries are removed later by each woken invocation's own
removeChannel, not by cancelAll. -/
theorem cancelAll_closes_all_and_keeps_registry (s s' : GState)
    (hc : cancelAll s = some s') :
    (∀ p ∈ s.canc.signals, s'.heap[p.2]? = some true) ∧ s'.canc = s.canc := by
  unfold cancelAll at hc
  cases hcl : closeList s.heap s.canc.signals with
  | none =>
    rw [hcl] at hc
    cases hc
  | some h2 =>
    rw [hcl] at hc
    simp only [Option.map_some'] at hc
    cases hc
    exact ⟨fun p hp => closeList_closes hcl p hp, rfl⟩

/-- C1 witness: the amended theorem applied to the one-waiter state,
showing the registered channel 0 is closed after cancelAll. -/
theorem cancelAll_closes_all_and_keeps_registry_witness :
    (([true] : Heap))[0]? = some true ∧
      (⟨[("b", 0)]⟩ : Canceller) = ⟨[("b", 0)]⟩ :=
  ⟨(cancelAll_closes_all_and_keeps_registry ⟨[false], ⟨[("b", 0)]⟩⟩
        ⟨[true], ⟨[("b", 0)]⟩⟩ rfl).1 ("b", 0) (by simp),
    (cancelAll_closes_all_and_keeps_registry ⟨[false], ⟨[("b", 0)]⟩⟩
        ⟨[true], ⟨[("b", 0)]⟩⟩ rfl).2⟩

/-! ### C2 -/

/-- C2: the code violates the no-double-signal invariant.  Starting from
a registry holding one open waiter, the first cancelAll succeeds and
closes the waiter's channel, but — because cancelAll never removes the
entry from the map — a second cancelAll with no intervening register or
deregister attempts to close the same, already-closed channel and
panics (Go: close of closed channel), modelled as returning none. -/
theorem double_cancelAll_faults :
    cancelAll ⟨[false], ⟨[("a", 0)]⟩⟩ = some ⟨[true], ⟨[("a", 0)]⟩⟩ ∧
      cancelAll ⟨[true], ⟨[("a", 0)]⟩⟩ = none := by
  exact ⟨rfl, rfl⟩

/-! ### C8 -/

/-- C8: removeChannel is idempotent: removing an absent key leaves the
canceller unchanged, and removing a key twice equals removing it
once. -/
theorem removeChannel_idempotent (canc : Canceller) (key : String) :
    (lookupKey canc.signals key = none → canc.removeChannel key = canc) ∧
      (canc.removeChannel key).removeChannel key = canc.removeChannel key := by
  constructor
  · intro h
    unfold Canceller.removeChannel
    rw [filter_ne_of_lookup_none _ _ h]
  · unfold Canceller.removeChannel
    simp [List.filter_filter]

/-- C8 witness: removing the absent key z from a one-entry registry is a
no-op, and doing it twice equals doing it once. -/
theorem removeChannel_idempotent_witness :
    Canceller.removeChannel ⟨[("x", 1)]⟩ "z" = ⟨[("x", 1)]⟩ ∧
      Canceller.removeChannel (Canceller.removeChannel ⟨[("x", 1)]⟩ "z") "z"
        = Canceller.removeChannel ⟨[("x", 1)]⟩ "z" :=
  ⟨(removeChannel_idempotent ⟨[("x", 1)]⟩ "z").1 rfl,
    (removeChannel_idempotent ⟨[("x", 1)]⟩ "z").2⟩

/-! ### C9 -/

/-- C9: cancelAll (SimulateKillSignal) on a state whose registry is
empty is a no-op: it closes nothing, faults nothing, and leaves the
whole state unchanged, and the same holds for arbitrarily many repeated
calls. -/
theorem cancelAll_empty_noop (s : GState) (h : s.canc.signals = []) :
    cancelAll s = some s ∧ ∀ n, cancelAllIter n s = some s := by
  have h1 : cancelAll s = some s := by
    unfold cancelAll
    rw [h]
    rfl
  refine ⟨h1, ?_⟩
  intro n
  induction n with
  | zero => rfl
  | succ n ih => simp [cancelAllIter, h1, ih]

/-- C9 witness: repeated SimulateKillSignal on a state with an empty
registry (and one leftover closed channel) is the identity. -/
theorem cancelAll_empty_noop_witness :
    cancelAll ⟨[true], ⟨[]⟩⟩ = some ⟨[true], ⟨[]⟩⟩ ∧
      cancelAllIter 3 ⟨[true], ⟨[]⟩⟩ = some ⟨[true], ⟨[]⟩⟩ :=
  ⟨(cancelAll_empty_noop ⟨[true], ⟨[]⟩⟩ rfl).1,
    (cancelAll_empty_noop ⟨[true], ⟨[]⟩⟩ rfl).2 3⟩

/-! ### Lemmas about one AwaitKillSignals invocation -/

theorem runDeferStack_fst : ∀ l : List Worker,
    (runDeferStack l).1 = l.map (fun w => Ev.shutdown w.sid)
  | [] => rfl
  | w :: rest => by simp [runDeferStack, runDeferStack_fst rest]

theorem runDeferStack_snd : ∀ l : List Worker,
    (runDeferStack l).2 = l.any (fun w => w.panics)
  | [] => rfl
  | w :: rest => by simp [runDeferStack, runDeferStack_snd rest]

theorem shutdownsOf_map (l : List Worker) :
    shutdownsOf (l.map (fun w => Ev.shutdown w.sid)) = l.map Worker.sid := by
  induction l with
  | nil => rfl
  | cons w rest ih => simpa [shutdownsOf, List.filterMap_cons] using ih

theorem awaitKillSignals_trace (key : String) (runners : List Worker)
    (ev : TermEvent) (s : GState) :
    (awaitKillSignals key runners ev s).trace
      = Ev.register key :: Ev.deregister key ::
          runners.reverse.map (fun w => Ev.shutdown w.sid) := by
  simp [awaitKillSignals, runDeferStack_fst]

theorem awaitKillSignals_outcome (key : String) (runners : List Worker)
    (ev : TermEvent) (s : GState) :
    (awaitKillSignals key runners ev s).outcome
      = if runners.any (fun w => w.panics) then Outcome.panicked
        else Outcome.normal := by
  simp [awaitKillSignals, runDeferStack_snd]

theorem awaitKillSignals_state (key : String) (runners : List Worker)
    (ev : TermEvent) (s : GState) :
    (awaitKillSignals key runners ev s).state
      = ⟨s.heap ++ [false],
          (s.canc.addChannel key s.heap.length).removeChannel key⟩ := by
  cases ev <;> simp [awaitKillSignals, newChan]

/-! ### C3 -/

/-- C3: for every non-empty worker set, one complete AwaitKillSignal
invocation terminated by a configured kill signal invokes every
worker's shutdown callback exactly once before returning: in the
completed invocation's trace, each worker's shutdown id occurs exactly
once among the executed shutdowns. -/
theorem awaitKillSignal_shutdown_exactly_once (key : String)
    (runners : List Worker) (s : GState) (_hne : runners ≠ [])
    (hnd : (runners.map Worker.sid).Nodup) :
    ∀ w ∈ runners,
      (shutdownsOf
          (awaitKillSignal key runners TermEvent.osSignal s).trace).count w.sid
        = 1 := by
  intro w hw
  have htr : shutdownsOf
      (awaitKillSignal key runners TermEvent.osSignal s).trace
      = (runners.map Worker.sid).reverse := by
    rw [awaitKillSignal, awaitKillSignals_trace]
    show shutdownsOf (runners.reverse.map (fun w => Ev.shutdown w.sid))
      = (runners.map Worker.sid).reverse
    rw [shutdownsOf_map, List.map_reverse]
  rw [htr, List.count_reverse]
  exact List.count_eq_one_of_mem hnd (List.mem_map_of_mem Worker.sid hw)

/-- C3 witness: one worker with shutdown id 5; after an OS kill signal
the completed invocation's trace records its shutdown exactly once. -/
theorem awaitKillSignal_shutdown_exactly_once_witness :
    (shutdownsOf
        (awaitKillSignal "k" [⟨5, false⟩] TermEvent.osSignal
          ⟨[], ⟨[]⟩⟩).trace).count 5 = 1 :=
  awaitKillSignal_shutdown_exactly_once "k" [⟨5, false⟩] ⟨[], ⟨[]⟩⟩
    (by simp) (by simp) ⟨5, false⟩ (by simp)

/-! ### C4 -/

/-- C4 counterexample: with a single worker whose shutdown callback
panics, the invocation does not return normally: the fault is not
caught, contained, or reported inside AwaitKillSignals — it propagates
out of the invocation as a panic. -/
theorem awaitKillSignals_panic_not_contained :
    (awaitKillSignals "a" [⟨0, true⟩] TermEvent.osSignal
        ⟨[], ⟨[]⟩⟩).outcome ≠ Outcome.normal := by
  decide

/-- C4 (amended): if any worker's shutdown callback panics, every
worker's shutdown callback still executes (Go runs the remaining
deferred calls while panicking), and the invocation then ends by
propagating the panic to its caller rather than catching or reporting
it. -/
theorem awaitKillSignals_runs_all_shutdowns_and_propagates (key : String)
    (runners : List Worker) (ev : TermEvent) (s : GState) :
    (∀ w ∈ runners,
        Ev.shutdown w.sid ∈ (awaitKillSignals key runners ev s).trace) ∧
      (runners.any (fun w => w.panics) = true →
        (awaitKillSignals key runners ev s).outcome = Outcome.panicked) := by
  constructor
  · intro w hw
    rw [awaitKillSignals_trace]
    have hm : Ev.shutdown w.sid
        ∈ runners.reverse.map (fun w => Ev.shutdown w.sid) :=
      List.mem_map_of_mem _ (List.mem_reverse.mpr hw)
    exact List.mem_cons_of_mem _ (List.mem_cons_of_mem _ hm)
  · intro hp
    rw [awaitKillSignals_outcome, hp]
    rfl

/-- C4 witness: a single panicking worker: its shutdown does execute,
and the invocation ends panicking. -/
theorem awaitKillSignals_runs_all_shutdowns_and_propagates_witness :
    Ev.shutdown 3 ∈ (awaitKillSignals "k" [⟨3, true⟩] TermEvent.osSignal
        ⟨[], ⟨[]⟩⟩).trace ∧
      (awaitKillSignals "k" [⟨3, true⟩] TermEvent.osSignal
          ⟨[], ⟨[]⟩⟩).outcome = Outcome.panicked :=
  ⟨(awaitKillSignals_runs_all_shutdowns_and_propagates "k" [⟨3, true⟩]
        TermEvent.osSignal ⟨[], ⟨[]⟩⟩).1 ⟨3, true⟩ (by simp),
    (awaitKillSignals_runs_all_shutdowns_and_propagates "k" [⟨3, true⟩]
        TermEvent.osSignal ⟨[], ⟨[]⟩⟩).2 (by decide)⟩

/-! ### C6 -/

/-- C6: addChannel under a fresh key (as performed by a run invocation,
whose uuid key is assumed not already present) inserts the new waiter:
the registry grows by exactly one entry, every previously registered
waiter is still present, and the new key maps to the new channel;
addChannel is total, with no failure case. -/
theorem addChannel_fresh_key (canc : Canceller) (key : String) (c : Nat)
    (hfresh : lookupKey canc.signals key = none) :
    (canc.addChannel key c).signals.length = canc.signals.length + 1 ∧
      (∀ p ∈ canc.signals, p ∈ (canc.addChannel key c).signals) ∧
      lookupKey (canc.addChannel key c).signals key = some c := by
  have hfilter : canc.signals.filter (fun p => p.1 != key) = canc.signals :=
    filter_ne_of_lookup_none _ _ hfresh
  unfold Canceller.addChannel
  rw [hfilter]
  refine ⟨by simp, fun p hp => List.mem_cons_of_mem _ hp, ?_⟩
  simp [lookupKey]

/-- C6 witness: inserting key y into a registry holding key x. -/
theorem addChannel_fresh_key_witness :
    (Canceller.addChannel ⟨[("x", 7)]⟩ "y" 9).signals.length
        = (⟨[("x", 7)]⟩ : Canceller).signals.length + 1 ∧
      (∀ p ∈ (⟨[("x", 7)]⟩ : Canceller).signals,
        p ∈ (Canceller.addChannel ⟨[("x", 7)]⟩ "y" 9).signals) ∧
      lookupKey (Canceller.addChannel ⟨[("x", 7)]⟩ "y" 9).signals "y"
        = some 9 :=
  addChannel_fresh_key ⟨[("x", 7)]⟩ "y" 9 rfl

/-! ### C7 -/

/-- C7: in every completed AwaitKillSignals invocation, the deregister
of this invocation's waiter occurs strictly before every shutdown
callback in the trace, and every collected shutdown callback appears in
the trace of the completed invocation — so the invocation returns only
after all of them have run. -/
theorem deregister_before_shutdowns (key : String) (runners : List Worker)
    (ev : TermEvent) (s : GState) :
    (∀ (i j : Nat) (k2 : String) (n : Nat),
        (awaitKillSignals key runners ev s).trace[i]?
            = some (Ev.deregister k2) →
        (awaitKillSignals key runners ev s).trace[j]? = some (Ev.shutdown n) →
        i < j) ∧
      ∀ w ∈ runners,
        Ev.shutdown w.sid ∈ (awaitKillSignals key runners ev s).trace := by
  rw [awaitKillSignals_trace]
  constructor
  · intro i j k2 n hi hj
    have hi1 : i = 1 := by
      match i with
      | 0 => cases hi
      | 1 => rfl
      | i' + 2 =>
        rw [List.getElem?_cons_succ, List.getElem?_cons_succ] at hi
        have hmem := List.getElem?_mem hi
        obtain ⟨w, -, hww⟩ := List.mem_map.mp hmem
        cases hww
    have hj2 : 2 ≤ j := by
      match j with
      | 0 => rw [List.getElem?_cons_zero] at hj; cases hj
      | 1 =>
        rw [List.getElem?_cons_succ, List.getElem?_cons_zero] at hj
        cases hj
      | j' + 2 => omega
    omega
  · intro w hw
    have hm : Ev.shutdown w.sid
        ∈ runners.reverse.map (fun w => Ev.shutdown w.sid) :=
      List.mem_map_of_mem _ (List.mem_reverse.mpr hw)
    exact List.mem_cons_of_mem _ (List.mem_cons_of_mem _ hm)

/-- C7 witness: with a single worker (shutdown id 2), the deregister
event is at position 1 and the shutdown at position 2 of the trace, and
the theorem yields 1 < 2 and the shutdown's membership. -/
theorem deregister_before_shutdowns_witness :
    (1 : Nat) < 2 ∧
      Ev.shutdown 2 ∈ (awaitKillSignals "k" [⟨2, false⟩] TermEvent.osSignal
          ⟨[], ⟨[]⟩⟩).trace :=
  ⟨(deregister_before_shutdowns "k" [⟨2, false⟩] TermEvent.osSignal
        ⟨[], ⟨[]⟩⟩).1 1 2 "k" 2 rfl rfl,
    (deregister_before_shutdowns "k" [⟨2, false⟩] TermEvent.osSignal
        ⟨[], ⟨[]⟩⟩).2 ⟨2, false⟩ (by simp)⟩

/-! ### C10 -/

/-- C10: a completed AwaitKillSignals invocation whose uuid key is fresh
touches only its own registry entry: it registers exactly the one new
entry (the registered registry is its entry consed onto the previous
entries), its final registry equals the initial one (the entry it added
is exactly the entry it removed), and every pre-existing channel — in
particular every other invocation's waiter — is left with its state
unchanged, never signaled by this invocation. -/
theorem awaitKillSignals_frame (key : String) (runners : List Worker)
    (ev : TermEvent) (s : GState)
    (hfresh : lookupKey s.canc.signals key = none) :
    (s.canc.addChannel key (newChan s.heap).2).signals
        = (key, (newChan s.heap).2) :: s.canc.signals ∧
      (awaitKillSignals key runners ev s).state.canc = s.canc ∧
      ∀ c, c < s.heap.length →
        (awaitKillSignals key runners ev s).state.heap[c]? = s.heap[c]? := by
  have hfilter : s.canc.signals.filter (fun p => p.1 != key)
      = s.canc.signals := filter_ne_of_lookup_none _ _ hfresh
  refine ⟨?_, ?_, ?_⟩
  · unfold Canceller.addChannel
    rw [hfilter]
  · rw [awaitKillSignals_state]
    show (Canceller.removeChannel
      (Canceller.addChannel s.canc key s.heap.length) key) = s.canc
    unfold Canceller.addChannel Canceller.removeChannel
    rw [hfilter]
    simp [List.filter_cons, hfilter]
  · intro c hc
    rw [awaitKillSignals_state]
    exact List.getElem?_append_left hc

/-- C10 witness: an invocation under fresh key k over a state holding
another invocation's waiter (key x, open channel 0): the registered
registry is the new entry plus the old one, the final registry equals
the initial one, and channel 0 is untouched. -/
theorem awaitKillSignals_frame_witness :
    (Canceller.addChannel ⟨[("x", 0)]⟩ "k"
          (newChan [false]).2).signals
        = ("k", (newChan [false]).2) :: [("x", 0)] ∧
      (awaitKillSignals "k" [] TermEvent.osSignal
          ⟨[false], ⟨[("x", 0)]⟩⟩).state.canc = ⟨[("x", 0)]⟩ ∧
      ∀ c, c < ([false] : Heap).length →
        (awaitKillSignals "k" [] TermEvent.osSignal
            ⟨[false], ⟨[("x", 0)]⟩⟩).state.heap[c]?
          = ([false] : Heap)[c]? :=
  awaitKillSignals_frame "k" [] TermEvent.osSignal ⟨[false], ⟨[("x", 0)]⟩⟩ rfl

end Rununtil
